import Mathlib

/-!
Shallow embedding of the streamdeck driver (MrGunflame/streamdeck) core:
the type-keyed registry (`src/typemap.rs`, mirrored in `src/core.rs`),
the dispatch loop and device worker (`src/core.rs`), the `pactl` event
decoder (`src/main.rs`), and the OBS background-session pattern
(`src/plugins/obs.rs`).

Rust `HashMap`s are modelled as functions `Nat → Option _` where only
lookup/insert matter, and as explicit entry lists where iteration order
matters.  Machine integers are `Nat` with explicit `% 2 ^ w` at the points
where the source truncates.  Panics (`unwrap`, `assert_eq!`, checked
arithmetic overflow) are modelled as a distinguished outcome constructor.
-/

namespace Streamdeck

/-! ### Type-keyed registry (`src/typemap.rs`)

`TypeMap(HashMap<TypeId, Box<dyn Any + Send + Sync>>)`.  A `TypeId` is
modelled as a `Nat` code; a boxed `dyn Any` value is a dependent pair
`Sigma V` pairing the code of its concrete type with a value of that type,
for an arbitrary family `V` of concrete types.  `downcast_ref::<T>`
succeeds exactly when the stored code equals `T`'s code. -/

def TypeMap (V : Nat → Type) : Type := Nat → Option (Sigma V)

namespace TypeMap

variable {V : Nat → Type}

/-- `TypeMap::new` — the empty map. -/
def new : TypeMap V := fun _ => none

/-- `Box::downcast_ref::<T>` on a type-erased value. -/
def downcastRef (t : Nat) (d : Sigma V) : Option (V t) :=
  if h : d.1 = t then some (h ▸ d.2) else none

/-- `TypeMap::get::<T>`: `self.0.get(&TypeId::of::<T>()).and_then(|b| b.downcast_ref::<T>())`. -/
def get (t : Nat) (m : TypeMap V) : Option (V t) :=
  (m t).bind (downcastRef t)

/-- `TypeMap::insert::<T>`: `self.0.insert(TypeId::of::<T>(), Box::new(value))` —
`HashMap::insert` replaces any previous value under the same key. -/
def insert (t : Nat) (v : V t) (m : TypeMap V) : TypeMap V :=
  fun k => if k = t then some ⟨t, v⟩ else m k

/-- `TypeMap::contains_key::<T>`. -/
def contains_key (t : Nat) (m : TypeMap V) : Bool :=
  (m t).isSome

/-- A map built by a sequence of `insert`s starting from `new`
(each list element carries the inserted type's code and the value). -/
def build (ops : List (Sigma V)) : TypeMap V :=
  ops.foldl (fun m d => insert d.1 d.2 m) new

theorem downcastRef_mk (t : Nat) (v : V t) :
    downcastRef t (⟨t, v⟩ : Sigma V) = some v :=
  dif_pos rfl

theorem get_insert_self (t : Nat) (v : V t) (m : TypeMap V) :
    get t (insert t v m) = some v := by
  simp [get, insert, downcastRef_mk]

theorem get_insert_ne (t u : Nat) (h : u ≠ t) (v : V t) (m : TypeMap V) :
    get u (insert t v m) = get u m := by
  simp [get, insert, h]

theorem get_build_not_mem (u : Nat) (ops : List (Sigma V))
    (h : ∀ d ∈ ops, d.1 ≠ u) : get u (build ops) = none := by
  suffices H : ∀ (m : TypeMap V), get u m = none → get u (ops.foldl (fun m d => insert d.1 d.2 m) m) = none by
    exact H new (by simp [get, new])
  induction ops with
  | nil => intro m hm; simpa using hm
  | cons d rest ih =>
      intro m hm
      simp only [List.foldl_cons]
      refine ih (fun e he => h e (List.mem_cons_of_mem d he)) _ ?_
      rw [get_insert_ne d.1 u ?_ d.2 m]
      · exact hm
      · exact fun huv => h d (List.mem_cons_self d rest) huv.symm

end TypeMap

/-! ### Colors (`src/core.rs`, `impl From<u32> for Color`)

```rust
fn from(t: u32) -> Self {
    Self { r: t as u8, g: (t << 8) as u8, b: (t << 16) as u8 }
}
```
`t << n` is a `u32` shift (wrapping at `2 ^ 32`); `as u8` truncates to the
low byte. -/

structure Color where
  r : Nat
  g : Nat
  b : Nat
  deriving DecidableEq, Repr

/-- `x as u8` — truncation of an unsigned value to 8 bits. -/
def asU8 (x : Nat) : Nat := x % 2 ^ 8

/-- `t << n` on `u32` — left shift wrapping at `2 ^ 32`. -/
def u32Shl (t n : Nat) : Nat := (t * 2 ^ n) % 2 ^ 32

/-- `impl From<u32> for Color` from `src/core.rs`. -/
def Color.fromU32 (t : Nat) : Color :=
  { r := asU8 t, g := asU8 (u32Shl t 8), b := asU8 (u32Shl t 16) }

/-! ### `pactl` event decoder (`src/main.rs`, `mod pactl`)

Byte buffers are modelled as `List Char` (the protocol is ASCII).
Computations that can panic (`unwrap`, `assert_eq!`, checked-arithmetic
overflow) return `PRes`, whose `panicked` constructor marks a panic. -/

/-- Outcome of a Rust computation that may panic. -/
inductive PRes (α : Type) where
  | ok (a : α)
  | panicked
  deriving DecidableEq, Repr

instance : Monad PRes where
  pure := .ok
  bind := fun x f =>
    match x with
    | .ok a => f a
    | .panicked => .panicked

/-- `Option::unwrap` — panics on `None`. -/
def PRes.unwrapO {α : Type} (o : Option α) : PRes α :=
  match o with
  | some a => .ok a
  | none => .panicked

/-- `assert_eq!(a, b)` — panics when the two sides differ. -/
def assertEqC (a b : List Char) : PRes Unit :=
  if a = b then .ok () else .panicked

/-- `buf.split(|b| *b == b' ')` — split on every space byte; like Rust's
`slice::split`, the empty buffer yields one empty piece. -/
def splitOnSpace : List Char → List (List Char)
  | [] => [[]]
  | c :: rest =>
    match splitOnSpace rest with
    | [] => [[]]
    | p :: ps => if c = ' ' then [] :: p :: ps else (c :: p) :: ps

/-- `str::parse::<u32>` on an ASCII buffer: succeeds on a non-empty
all-digit string. -/
def parseNat (cs : List Char) : Option Nat :=
  if cs.isEmpty then none
  else if cs.all (fun c => c.isDigit) then
    some (cs.foldl (fun n c => n * 10 + (c.toNat - 48)) 0)
  else none

namespace Pactl

/-- `pactl::Event` (`src/main.rs`). -/
inductive Event where
  | New
  | Change
  | Remove
  deriving DecidableEq, Repr

/-- `Event::deserialize`: matches the raw kind token, quotes included. -/
def Event.deserialize (buf : List Char) : Option Event :=
  if buf = "'new'".toList then some .New
  else if buf = "'change'".toList then some .Change
  else if buf = "'remove'".toList then some .Remove
  else none

/-- `pactl::EventDst` (`src/main.rs`). -/
inductive EventDst where
  | Sink (id : Nat)
  | Source (id : Nat)
  | Card (id : Nat)
  | SourceOutput (id : Nat)
  | Client (id : Nat)
  | SinkInput (id : Nat)
  deriving DecidableEq, Repr

/-- `EventDst::deserialize(buf: [&[u8]; 2])`: strips the `#` off `buf[1]`
(`None` when absent), `parse().unwrap()`s the id (a panic when the id is
not numeric), then matches the entity-type token `buf[0]`. -/
def EventDst.deserialize (b0 b1 : List Char) : PRes (Option EventDst) :=
  match (if b1.take 1 = "#".toList then some (b1.drop 1) else none) with
  | none => .ok none
  | some ids =>
    match parseNat ids with
    | none => .panicked
    | some id =>
      .ok (if b0 = "sink".toList then some (.Sink id)
        else if b0 = "source".toList then some (.Source id)
        else if b0 = "card".toList then some (.Card id)
        else if b0 = "source-output".toList then some (.SourceOutput id)
        else if b0 = "client".toList then some (.Client id)
        else if b0 = "sink-input".toList then some (.SinkInput id)
        else none)

/-- Outcome of `Subscription::read_event`: a decoded pair, the
`Err(Error::DeserializeError)` return, or a panic. -/
inductive ReadOut where
  | ok (e : Event × EventDst)
  | err
  | panicked
  deriving DecidableEq, Repr

/-- The body of `read_event` after the newline truncation: index the
space-separated parts (out-of-bounds indexing panics), `assert_eq!` the
fixed tokens, `unwrap` the kind, and decode the destination.  `ok none`
is the `return Err(Error::DeserializeError)` path. -/
def readEventBody (parts : List (List Char)) : PRes (Option (Event × EventDst)) := do
  let p0 ← PRes.unwrapO (parts.get? 0)
  assertEqC p0 "Event".toList
  let p1 ← PRes.unwrapO (parts.get? 1)
  let event ← PRes.unwrapO (Event.deserialize p1)
  let p2 ← PRes.unwrapO (parts.get? 2)
  assertEqC p2 "on".toList
  let p3 ← PRes.unwrapO (parts.get? 3)
  let p4 ← PRes.unwrapO (parts.get? 4)
  match ← EventDst.deserialize p3 p4 with
  | none => pure none
  | some dst => pure (some (event, dst))

/-- `Subscription::read_event`.  `raw` is the byte buffer returned by
`read_until(b'\n')` — up to and including the newline, or whatever
remained at end-of-stream (zero bytes once the stream has ended).
`buf.truncate(buf.len() - 1)` computes `0 - 1` on an empty buffer, which
panics under Rust's checked (debug) arithmetic; under wrapping (release)
arithmetic the truncation is a no-op and the subsequent
`assert_eq!(parts[0], b"Event")` panics on the empty part — a panic
either way, modelled by the `length = 0` branch. -/
def read_event (raw : List Char) : ReadOut :=
  if raw.length = 0 then .panicked
  else
    match readEventBody (splitOnSpace (raw.take (raw.length - 1))) with
    | .panicked => .panicked
    | .ok none => .err
    | .ok (some e) => .ok e

end Pactl

/-! ### Device worker and dispatch loop (`src/core.rs`) -/

/-- `const POLLING_RATE: Duration = Duration::from_millis(500)` — in ms. -/
def POLLING_RATE : Nat := 500

/-- The `streamdeck::Error` values the worker can see from
`read_buttons`: the no-data condition, or any other hardware-level
error (indexed by an opaque code). -/
inductive SdError where
  | noData
  | other (code : Nat)
  deriving DecidableEq, Repr

/-- What the worker thread does with one `Message::ReadButtons` request:
answer the caller with an optional snapshot, or panic. -/
inductive WorkerReply where
  | reply (keys : Option (List Nat))
  | panicked
  deriving DecidableEq, Repr

/-- The `Message::ReadButtons` branch of the worker loop in
`StreamDeck::connect`:
```rust
let keys = match deck.read_buttons(None) {
    Ok(keys) => Some(keys),
    Err(err) => match err {
        streamdeck::Error::NoData => None,
        _ => panic!("{:?}", err),
    },
};
let _ = tx.send(keys);
``` -/
def workerReadButtons (res : Except SdError (List Nat)) : WorkerReply :=
  match res with
  | .ok keys => .reply (some keys)
  | .error e =>
    match e with
    | .noData => .reply none
    | .other _ => .panicked

/-- `rx.recv().unwrap()` in `main_loop`: `none` models the `RecvError`
returned when the reply channel's sender was dropped without sending
(the worker died mid-request); `unwrap` turns it into a panic of the
dispatch task. -/
def recvUnwrap {α : Type} (r : Option α) : PRes α :=
  match r with
  | some a => .ok a
  | none => .panicked

/-- What one poll-cycle head does with the worker's answer: sleep the
polling interval and retry on `None`, or go on to dispatch `Some keys`. -/
inductive LoopAction where
  | sleepRetry (ms : Nat)
  | dispatch (keys : List Nat)
  deriving DecidableEq, Repr

/-- The `match rx.recv().unwrap() { Some(keys) => keys, None => { sleep(POLLING_RATE); continue } }`
step of `main_loop`. -/
def loopOnReply (keys : Option (List Nat)) : LoopAction :=
  match keys with
  | none => .sleepRetry POLLING_RATE
  | some ks => .dispatch ks

/-- `keys.iter().enumerate().find(|&(_, &x)| x == 1)`, with the running
index made explicit. -/
def findPressedFrom : Nat → List Nat → Option Nat
  | _, [] => none
  | i, x :: xs => if x = 1 then some i else findPressedFrom (i + 1) xs

/-- Index of the first snapshot entry equal to the pressed value `1`. -/
def findPressed (keys : List Nat) : Option Nat :=
  findPressedFrom 0 keys

/-- The dispatch part of one `main_loop` cycle: find the first pressed
entry (`continue` when there is none), look the key up in the handler
table (`registered`), and invoke `exec_click` on that handler
(`buttons.get_mut(&key)` returning `None` invokes nothing).  The result
is the key whose handler's `on_click` runs this cycle, if any — the
source structurally invokes at most one handler per cycle. -/
def dispatchCycle (keys : List Nat) (registered : Nat → Bool) : Option Nat :=
  match findPressed keys with
  | none => none
  | some k => if registered k then some k else none

/-- The init phase of `main_loop`:
```rust
for (key, button) in buttons.write().unwrap().iter_mut() {
    match button.exec_init(*key, deck.clone(), &mut state).await {
        Ok(()) => (),
        Err(err) => println!("[ERROR] Failed to initialize key {}: {:?}", key, err),
    }
}
```
`entries` is the handler table in the `HashMap`'s iteration order (which
Rust leaves unspecified); each entry's `Bool` tells whether that
handler's `init` returns `Ok`.  Result: the keys whose `init` was
invoked, in invocation order, and the keys whose failures were logged. -/
def initPhase : List (Nat × Bool) → List Nat × List Nat
  | [] => ([], [])
  | (k, ok) :: rest =>
    let r := initPhase rest
    (k :: r.1, if ok then r.2 else k :: r.2)

/-! ### The `OBSClient::new` check-then-insert race (`src/plugins/obs.rs`)

`OBSClient::new` takes the registry's read lock, checks
`contains_key::<Self>()` and returns early when present; otherwise it
drops the read lock, takes the write lock, spawns the background-session
task and inserts the handle.  Two concurrent `init` calls are modelled as
two threads of two atomic sections each — the read-locked check and the
write-locked spawn+insert — interleaved by an explicit schedule. -/

/-- Global state of the race model: whether an `OBSClient` value is in
the registry (the typemap holds at most one value per type — a second
insert overwrites), and how many background-session tasks were spawned. -/
structure RaceState where
  present : Bool
  spawned : Nat
  pcA : Nat
  pcB : Nat
  deriving DecidableEq, Repr

/-- Initial state: empty registry, nothing spawned, both calls at their
read-locked `contains_key` check (`pc = 0`; `pc = 1`: past a check that
saw the type absent, about to take the write lock; `pc = 2`: returned). -/
def raceInit : RaceState := ⟨false, 0, 0, 0⟩

/-- One atomic step of one `OBSClient::new` call: at `pc = 0` the
read-locked `contains_key` check (return early when present, else fall
through to the write section); at `pc = 1` the write-locked section
(`task::spawn(...)`; `typemap.insert(Self { tx })`). -/
def raceStepThread (present : Bool) (spawned pc : Nat) : Bool × Nat × Nat :=
  match pc with
  | 0 => if present then (present, spawned, 2) else (present, spawned, 1)
  | 1 => (true, spawned + 1, 2)
  | _ => (present, spawned, 2)

/-- Run one scheduled step (`true` steps call A, `false` steps call B). -/
def raceStep (s : RaceState) (who : Bool) : RaceState :=
  if who then
    let r := raceStepThread s.present s.spawned s.pcA
    ⟨r.1, r.2.1, r.2.2, s.pcB⟩
  else
    let r := raceStepThread s.present s.spawned s.pcB
    ⟨r.1, r.2.1, s.pcA, r.2.2⟩

/-- Run a whole interleaving of the two `OBSClient::new` calls. -/
def raceRun (sched : List Bool) : RaceState :=
  sched.foldl raceStep raceInit

/-! ### OBS background session (`src/plugins/obs.rs`) -/

/-- `const OBS_CLIENT_RECONNECT: Option<Duration> = None` — backoff in
seconds, `none` meaning no backoff configured. -/
def OBS_CLIENT_RECONNECT : Option Nat := none

/-- `core::Error` as used by `src/plugins/obs.rs` (the `NoResponse`
variant is required by `recording_status` / `recording_start` /
`recording_stop`). -/
inductive Error where
  | Streamdeck (e : SdError)
  | BoxError
  | NoResponse
  deriving DecidableEq, Repr

/-- Run the background task's reconnect loop over the outcomes of its
successive `Client::connect` attempts (`true` = connected):
```rust
loop {
    let client = match Client::connect(..).await {
        Ok(client) => client,
        Err(err) => {
            time::sleep(match OBS_CLIENT_RECONNECT {
                Some(dur) => dur,
                None => break,
            }).await;
            continue;
        }
    };
    while let Some(msg) = rx.recv().await { .. }
}
```
Returns the number of connect attempts made and whether the loop
`break`s (terminating the task).  A successful attempt serves requests
until the connection breaks, then loops; the outcome list is the
schedule of attempts actually offered, so the run also ends (without the
task terminating) when it is exhausted. -/
def sessionRun (reconnect : Option Nat) : List Bool → Nat → Nat × Bool
  | [], n => (n, false)
  | o :: os, n =>
    if o then sessionRun reconnect os (n + 1)
    else
      match reconnect with
      | some _ => sessionRun reconnect os (n + 1)
      | none => (n + 1, true)

/-- The shared reply pattern of `recording_status`, `recording_start`
and `recording_stop`: `rx.await` on the one-shot reply channel yields
`none` when the background task died before replying (its sender was
dropped unsent) and `some res` otherwise:
```rust
match rx.await {
    Ok(res) => res,
    Err(_) => Err(Error::NoResponse),
}
``` -/
def awaitReply {α : Type} (rx : Option (Except Error α)) : Except Error α :=
  match rx with
  | some res => res
  | none => .error .NoResponse

/-- `OBSClient::recording_status` with the one-shot outcome explicit. -/
def recording_status {α : Type} (rx : Option (Except Error α)) : Except Error α :=
  awaitReply rx

/-- `OBSClient::recording_start` with the one-shot outcome explicit. -/
def recording_start (rx : Option (Except Error Unit)) : Except Error Unit :=
  awaitReply rx

/-- `OBSClient::recording_stop` with the one-shot outcome explicit. -/
def recording_stop (rx : Option (Except Error Unit)) : Except Error Unit :=
  awaitReply rx

/-! ### Helper lemmas -/

theorem findPressedFrom_eq (xs : List Nat) :
    ∀ (i k : Nat), xs.get? k = some 1 → (∀ j, j < k → xs.get? j ≠ some 1) →
      findPressedFrom i xs = some (i + k) := by
  induction xs with
  | nil => intro i k hk _; simp at hk
  | cons x xs ih =>
      intro i k hk hmin
      match k with
      | 0 =>
          simp only [List.get?] at hk
          have hx : x = 1 := by injection hk
          simp [findPressedFrom, hx]
      | k + 1 =>
          have hx : x ≠ 1 := by
            intro hx1
            exact hmin 0 (Nat.succ_pos k) (by simp [List.get?, hx1])
          have hrec := ih (i + 1) k (by simpa [List.get?] using hk)
            (fun j hj => by
              have := hmin (j + 1) (Nat.succ_lt_succ hj)
              simpa [List.get?] using this)
          simp only [findPressedFrom, if_neg hx]
          rw [hrec]
          congr 1
          omega

theorem findPressedFrom_none (xs : List Nat) (h : ∀ x ∈ xs, x ≠ 1) :
    ∀ i, findPressedFrom i xs = none := by
  induction xs with
  | nil => intro i; rfl
  | cons x xs ih =>
      intro i
      have hx : x ≠ 1 := h x (List.mem_cons_self x xs)
      simp only [findPressedFrom, if_neg hx]
      exact ih (fun y hy => h y (List.mem_cons_of_mem x hy)) (i + 1)

theorem initPhase_fst (entries : List (Nat × Bool)) :
    (initPhase entries).1 = entries.map Prod.fst := by
  induction entries with
  | nil => rfl
  | cons e rest ih => simp [initPhase, ih]

end Streamdeck

open Streamdeck

/-! ## Claims -/

/-- **C1.** The claim states that for every interleaving of two concurrent
`OBSClient::new`-style `init` calls doing the read-lock `contains_key`
check followed by the write-lock insert, at most one background-session
task is spawned.  The code drops the read lock between the check and the
write-locked spawn+insert, so the interleaving in which both calls pass
the check before either writes spawns **two** tasks (the registry still
ends up holding a single value, since the second insert overwrites).  A
serialized interleaving spawns one. -/
theorem obsclient_race_spawns_two :
    (raceRun [true, false, true, false]).spawned = 2 ∧
    (raceRun [true, false, true, false]).present = true ∧
    (raceRun [true, true, false]).spawned = 1 := by decide

/-- **C2 (counterexample).** The claim states the init phase invokes
handlers in ascending KeyIndex order.  The source iterates
`buttons.write().unwrap().iter_mut()` — a `HashMap`, whose iteration
order is unspecified — so a table holding keys 0 and 1 may legitimately
be presented as `[(1, _), (0, _)]` (a permutation of `[(0, _), (1, _)]`),
and the invocation order is then `[1, 0]`, which is not ascending. -/
theorem init_order_not_ascending :
    (initPhase [(1, true), (0, true)]).1 = [1, 0] ∧
    ¬ List.Chain' (· ≤ ·) [1, 0] ∧
    List.Perm [(1, true), (0, true)] [(0, true), (1, true)] :=
  ⟨by decide,
   by intro h
      rw [List.chain'_cons] at h
      exact absurd h.1 (by omega),
   List.Perm.swap (0, true) (1, true) []⟩

/-- **C2 (amended).** During the init phase every registered handler's
`init` is invoked exactly once (given distinct keys), in the handler
map's iteration order — which is unspecified, not necessarily ascending —
and an `Err` from one handler's `init` does not prevent any other
handler's `init` from running: the invocation list is independent of
which inits fail. -/
theorem init_all_invoked_once (entries : List (Nat × Bool))
    (h : (entries.map Prod.fst).Nodup) :
    (initPhase entries).1 = entries.map Prod.fst ∧
    (∀ k ∈ entries.map Prod.fst, (initPhase entries).1.count k = 1) ∧
    (initPhase (entries.map (fun e => (e.1, false)))).1 = (initPhase entries).1 := by
  refine ⟨initPhase_fst entries, ?_, ?_⟩
  · intro k hk
    rw [initPhase_fst entries]
    exact List.count_eq_one_of_mem h hk
  · rw [initPhase_fst entries, initPhase_fst (entries.map (fun e => (e.1, false)))]
    simp [List.map_map, Function.comp]

/-- Witness for C2 (amended): two handlers at keys 0 and 1, the one at
key 0 failing its `init`; both are invoked, each exactly once. -/
theorem init_all_invoked_once_witness :
    (initPhase [(0, false), (1, true)]).1 = [0, 1] ∧
    (∀ k ∈ [(0, false), (1, true)].map Prod.fst,
      (initPhase [(0, false), (1, true)]).1.count k = 1) ∧
    (initPhase ([(0, false), (1, true)].map (fun e => (e.1, false)))).1 =
      (initPhase [(0, false), (1, true)]).1 :=
  init_all_invoked_once [(0, false), (1, true)] (by decide)

/-- **C3 (counterexample).** The claim states that a line whose kind
token is unrecognized yields a decode error (an `Err`, not a panic).
The source runs `Event::deserialize(parts[1]).unwrap()`, so
`Event 'bogus' on sink #3` panics instead of returning `Err`. -/
theorem read_event_bogus_panics :
    Pactl.read_event "Event 'bogus' on sink #3\n".toList = .panicked ∧
    Pactl.read_event "Event 'bogus' on sink #3\n".toList ≠ .err := by decide

/-- **C3 (amended).** `Event 'change' on sink #3` decodes to
`(Change, Sink 3)`; an unrecognized entity-type token
(`Event 'new' on unknownthing #3`) yields a decode error (`Err`); but an
unrecognized kind token (`Event 'bogus' on sink #3`) panics — the
`unwrap` on `Event::deserialize` — rather than returning `Err`. -/
theorem read_event_decode_behavior :
    Pactl.read_event "Event 'change' on sink #3\n".toList =
      .ok (.Change, .Sink 3) ∧
    Pactl.read_event "Event 'new' on unknownthing #3\n".toList = .err ∧
    Pactl.read_event "Event 'bogus' on sink #3\n".toList = .panicked := by
  decide

/-- **C4.** In one poll cycle: when no snapshot entry equals the pressed
value `1`, no handler's `on_click` is invoked; when some entry is
pressed, `on_click` is invoked on the handler registered at the lowest
pressed index and on no other (the dispatch result is a single
`Option`al key, so at most one handler runs per cycle by construction). -/
theorem dispatch_click_lowest (keys : List Nat) (registered : Nat → Bool) :
    ((∀ x ∈ keys, x ≠ 1) → dispatchCycle keys registered = none) ∧
    (∀ k, keys.get? k = some 1 → (∀ j, j < k → keys.get? j ≠ some 1) →
      registered k = true → dispatchCycle keys registered = some k) := by
  constructor
  · intro h
    simp [dispatchCycle, findPressed, findPressedFrom_none keys h 0]
  · intro k hk hmin hreg
    have := findPressedFrom_eq keys 0 k hk hmin
    simp only [dispatchCycle, findPressed, this, Nat.zero_add, hreg, if_true]

/-- Witness for C4: an all-released snapshot dispatches nothing; in the
snapshot `[0, 1, 1]` the lowest pressed index is 1 and its handler is the
one clicked. -/
theorem dispatch_click_lowest_witness :
    dispatchCycle [0, 0, 0] (fun _ => true) = none ∧
    dispatchCycle [0, 1, 1] (fun _ => true) = some 1 :=
  ⟨(dispatch_click_lowest [0, 0, 0] (fun _ => true)).1 (by decide),
   (dispatch_click_lowest [0, 1, 1] (fun _ => true)).2 1 (by decide)
     (by intro j hj; have hj0 : j = 0 := by omega
         subst hj0; decide)
     rfl⟩

/-- **C5.** On the device's no-data condition the worker answers the
caller with `None` — an answer, not an error and not a panic — and the
dispatch loop reacts to `None` by sleeping the fixed polling interval,
`POLLING_RATE` = 500 ms, which lies within the documented 125–500 ms
default, before the next read. -/
theorem read_keys_nodata_sleep :
    workerReadButtons (.error .noData) = .reply none ∧
    loopOnReply none = .sleepRetry POLLING_RATE ∧
    POLLING_RATE = 500 ∧ 125 ≤ POLLING_RATE ∧ POLLING_RATE ≤ 500 := by
  decide

/-- **C6.** With `OBS_CLIENT_RECONNECT = None`, a background session
whose first connect attempt fails makes exactly one attempt and `break`s
out of its loop — terminating permanently, never retrying whatever
further attempt outcomes might have followed — and each request that
awaits a reply (`recording_status`, `recording_start`,
`recording_stop`) observes the dropped one-shot sender (`rx` yields no
reply) and returns `Error::NoResponse` rather than hanging. -/
theorem no_backoff_session_terminates (os : List Bool) :
    sessionRun OBS_CLIENT_RECONNECT (false :: os) 0 = (1, true) ∧
    recording_status (α := Nat) none = .error .NoResponse ∧
    recording_start none = .error .NoResponse ∧
    recording_stop none = .error .NoResponse :=
  ⟨rfl, rfl, rfl, rfl⟩

/-- **C7.** Any hardware-level read error other than the no-data
condition makes the worker panic — it neither retries, swallows the
error, nor keeps servicing requests — and the dispatch loop's
`rx.recv().unwrap()` then panics on the closed reply channel, so the
failure surfaces as a process-terminating panic of the dispatch task,
not a silent hang. -/
theorem hw_error_fatal (e : SdError) (h : e ≠ .noData) :
    workerReadButtons (.error e) = .panicked ∧
    recvUnwrap (α := Option (List Nat)) none = .panicked := by
  refine ⟨?_, rfl⟩
  match e with
  | .noData => exact absurd rfl h
  | .other c => rfl

/-- Witness for C7 at a concrete non-no-data hardware error. -/
theorem hw_error_fatal_witness :
    workerReadButtons (.error (.other 7)) = .panicked ∧
    recvUnwrap (α := Option (List Nat)) none = .panicked :=
  hw_error_fatal (.other 7) (by decide)

/-- **C8.** For the type-keyed registry: `insert::<T>(v)` then
`get::<T>()` returns `some v`; `insert::<T>(v1)` then `insert::<T>(v2)`
leaves exactly `v2` retrievable; and `get::<U>()` on a map built by
inserts none of which used type `U` returns `none` — an absent option,
not an error. -/
theorem typemap_singleton_semantics (V : Nat → Type) (t u : Nat)
    (v v1 v2 : V t) (m : TypeMap V) (ops : List (Sigma V))
    (hu : ∀ d ∈ ops, d.1 ≠ u) :
    TypeMap.get t (TypeMap.insert t v m) = some v ∧
    TypeMap.get t (TypeMap.insert t v2 (TypeMap.insert t v1 m)) = some v2 ∧
    TypeMap.get u (TypeMap.build ops) = none :=
  ⟨TypeMap.get_insert_self t v m,
   TypeMap.get_insert_self t v2 (TypeMap.insert t v1 m),
   TypeMap.get_build_not_mem u ops hu⟩

/-- Witness for C8 with `V _ = Nat`, `T` = code 0, `U` = code 1. -/
theorem typemap_singleton_semantics_witness :
    TypeMap.get (V := fun _ => Nat) 0 (TypeMap.insert 0 7 TypeMap.new) = some 7 ∧
    TypeMap.get (V := fun _ => Nat) 0
      (TypeMap.insert 0 2 (TypeMap.insert 0 1 TypeMap.new)) = some 2 ∧
    TypeMap.get (V := fun _ => Nat) 1 (TypeMap.build [⟨0, 5⟩]) = none :=
  typemap_singleton_semantics (fun _ => Nat) 0 1 7 1 2 TypeMap.new [⟨0, 5⟩]
    (by intro d hd
        rw [List.mem_singleton] at hd
        subst hd
        decide)

/-- **C9.** `Color::from(u32)` zeroes the green and blue components for
every input — `(t << 8) as u8` and `(t << 16) as u8` truncate a value
whose low byte the shift has already cleared — and the red component is
the low byte of `t`. -/
theorem color_from_u32_only_red (t : Nat) :
    Color.fromU32 t = { r := t % 2 ^ 8, g := 0, b := 0 } := by
  have h8 : (t * 2 ^ 8) % 2 ^ 32 % 2 ^ 8 = 0 := by
    have : (2 : Nat) ^ 32 = 2 ^ 24 * 2 ^ 8 := by norm_num
    rw [this, Nat.mul_mod_mul_right, Nat.mul_mod_left]
  have h16 : (t * 2 ^ 16) % 2 ^ 32 % 2 ^ 8 = 0 := by
    have h32 : (2 : Nat) ^ 32 = 2 ^ 24 * 2 ^ 8 := by norm_num
    have ht : t * 2 ^ 16 = t * 2 ^ 8 * 2 ^ 8 := by ring
    rw [h32, ht, Nat.mul_mod_mul_right, Nat.mul_mod_left]
  simp only [Color.fromU32, asU8, u32Shl, h8, h16]

/-- **C10.** When the subprocess's stream has ended and the line read
yields zero bytes, `read_event` panics (the `buf.truncate(buf.len() - 1)`
underflow under checked arithmetic; the `assert_eq!` on the empty first
part under wrapping arithmetic) instead of returning a decode error, so
a caller looping on `read_event` crashes at end-of-stream rather than
observing an `Err`. -/
theorem read_event_empty_panics :
    Pactl.read_event "".toList = .panicked ∧
    Pactl.read_event "".toList ≠ .err := by decide
